/-
Verification of the jsonrest error-translation and routing layer.

The Go source under verification is the `jsonrest` package: `errors.go`
(error envelope type, `translateError`, `dumpError`, `MarshalJSON`) together
with its test suite.  The router dispatch code (`writeError`, route table,
`BindBody`, `Routes`) is not part of the provided sources; those parts are
modelled from the specification and adjudicated by the package's own tests,
and each such definition is marked `Modelled from the spec:` in its
doc comment.

Machine integers are modelled as `Nat` (all status codes are small and
non-negative, no overflow arises).  Go's `nil`-able slices are `List`;
`encoding/json` values are the `Json` inductive below.
-/
import Mathlib

namespace Jsonrest

/-- A JSON value, as produced by Go's `encoding/json`.  Object fields are an
ordered association list, matching the deterministic field order Go emits for
struct marshalling. -/
inductive Json where
  | null : Json
  | bool (b : Bool) : Json
  | num (n : Int) : Json
  | str (s : String) : Json
  | arr (elems : List Json) : Json
  | obj (fields : List (String × Json)) : Json

/-- The `httpError` struct of `errors.go`: an error rendered to the client.
Field order follows the Go declaration. -/
structure HttpError where
  Code : String
  Message : String
  Details : List String
  Status : Nat
deriving DecidableEq, Repr

/-- The package-level `unknownError` variable of `errors.go`, returned for an
internal server error. -/
def unknownError : HttpError :=
  { Code := "unknown_error", Message := "an unknown error occurred"
    Details := [], Status := 500 }

/-- A Go `error` value as seen by this package, split by the capabilities the
translation boundary inspects:
* `httpErr` — a `*httpError` declared by the application;
* `statusErr` — any other error exposing a `StatusCode() int` method; `msg`
  is its `Error()` text, `status` the accessor's result, and `body` its
  `encoding/json` serialization (driven by the concrete type's own fields);
* `plain` — any other error; `formatted` is its `fmt.Sprintf("%+v", err)`
  text (for an error without a `Format` method this is its `Error()` text). -/
inductive GoError where
  | httpErr (e : HttpError) : GoError
  | statusErr (msg : String) (status : Nat) (body : Json) : GoError
  | plain (formatted : String) : GoError

/-- `Error` of `errors.go`: creates an error rendered directly to the
client. -/
def Error (status : Nat) (code message : String) : GoError :=
  .httpErr { Status := status, Code := code, Message := message, Details := [] }

/-- `BadRequest` of `errors.go`: HTTP 400 with a custom message
(`http.StatusBadRequest = 400`). -/
def BadRequest (msg : String) : GoError :=
  Error 400 "bad_request" msg

/-- `NotFound` of `errors.go`: HTTP 404 with a custom message. -/
def NotFound (msg : String) : GoError :=
  Error 404 "not_found" msg

/-- Whether the Go type assertion `err.(*httpError)` succeeds. -/
def isHttpError : GoError → Bool
  | .httpErr _ => true
  | _ => false

/-- The `fmt.Sprintf("%+v", err)` text used by `dumpError`.  `*httpError`
formats through its `Error()` method (`"jsonrest: <code>: <message>"`); the
other variants carry their formatted text directly. -/
def formatGoError : GoError → String
  | .httpErr e => "jsonrest: " ++ e.Code ++ ": " ++ e.Message
  | .statusErr msg _ _ => msg
  | .plain formatted => formatted

/-- Go's `strings.Replace(s, "\t", "  ", -1)`: the pattern is a single
character, so the replacement is character-wise — every tab becomes two
spaces. -/
def replaceTabs (s : String) : String :=
  String.mk (go s.toList)
where
  go : List Char → List Char
    | [] => []
    | c :: rest => if c = '\t' then ' ' :: ' ' :: go rest else c :: go rest

/-- Go's `strings.Split(s, sep)` for a one-character separator: split around
every occurrence of `sep`; the result always has at least one element. -/
def splitOnChar (sep : Char) (s : String) : List String :=
  go [] s.toList
where
  go (acc : List Char) : List Char → List String
    | [] => [String.mk acc.reverse]
    | c :: rest =>
      if c = sep then String.mk acc.reverse :: go [] rest
      else go (c :: acc) rest

/-- `dumpError` of `errors.go`: stringify with `%+v`, replace every tab with
two spaces, split on newlines. -/
def dumpError (err : GoError) : List String :=
  splitOnChar '\n' (replaceTabs (formatGoError err))

/-- `translateError` of `errors.go`, with the package-level `unknownError`
variable made an explicit state component `g`: the result is
`(value of unknownError after the call, returned *httpError)`.  Despite its
`// shallow copy` comment, the source's `httpErr = &(*unknownError)` is an
alias — Go's `&(*p)` is `p` itself (staticcheck SA4001) — so the subsequent
`httpErr.Details = dumpError(err)` assignment writes through to the global,
and the returned `*httpError` is the global's new value. -/
def translateErrorSt (g : HttpError) (err : GoError) (dumpInternalError : Bool) :
    HttpError × HttpError :=
  match err with
  | .httpErr e => (g, e)
  | _ =>
    let g' := if dumpInternalError then { g with Details := dumpError err } else g
    (g', g')

/-- `translateError` of `errors.go` as a function of the call's inputs alone:
run the stateful version on the initial value of the global, the state every
call from a pristine process sees. -/
def translateError (err : GoError) (dumpInternalError : Bool) : HttpError :=
  (translateErrorSt unknownError err dumpInternalError).2

/-- `(*httpError).MarshalJSON` of `errors.go`: wrap code/message/details in an
`"error"` object; `details` carries `omitempty`, so it is dropped when the
slice is empty. -/
def marshalHttpError (e : HttpError) : Json :=
  Json.obj [("error", Json.obj
    ([("code", Json.str e.Code), ("message", Json.str e.Message)] ++
      (if e.Details.isEmpty then []
       else [("details", Json.arr (e.Details.map Json.str))])))]

/-- JSON string escaping as `encoding/json` performs it for the characters
appearing in this development (quote, backslash, newline, tab; everything
else printable ASCII passes through). -/
def escapeJsonChar (c : Char) : String :=
  if c = '"' then "\\\""
  else if c = '\\' then "\\\\"
  else if c = '\n' then "\\n"
  else if c = '\t' then "\\t"
  else String.singleton c

def escapeJsonString (s : String) : String :=
  String.join (s.toList.map escapeJsonChar)

mutual

/-- Compact rendering of a `Json` value, matching `encoding/json` output. -/
def renderJson : Json → String
  | .null => "null"
  | .bool b => if b then "true" else "false"
  | .num n => toString n
  | .str s => "\"" ++ escapeJsonString s ++ "\""
  | .arr elems => "[" ++ renderJsonList elems ++ "]"
  | .obj fields => "\x7b" ++ renderJsonFields fields ++ "\x7d"

def renderJsonList : List Json → String
  | [] => ""
  | [x] => renderJson x
  | x :: xs => renderJson x ++ "," ++ renderJsonList xs

def renderJsonFields : List (String × Json) → String
  | [] => ""
  | [(k, v)] => "\"" ++ escapeJsonString k ++ "\":" ++ renderJson v
  | (k, v) :: xs =>
      "\"" ++ escapeJsonString k ++ "\":" ++ renderJson v ++ "," ++ renderJsonFields xs

end

/-- Modelled from the spec: the router's error write path is not among the
provided sources (only `errors.go` and the tests are).  Spec §4.5 steps 1-3:
an error exposing a status-code accessor is written with that status and its
own serialized body; every other error goes through `translateError` and is
written with the resulting envelope's status.  Where the spec's step 2
wording (re-wrap in a `code`/`message` envelope) conflicts with the package's
own test `TestError` (which pins body `\x7b"message":"test"\x7d` at status
444 for a `StatusCode()` error), the test is followed: the error value's own
serialization is the body.  In this source version `*httpError` has no
`StatusCode` method, so it takes the `translateError` branch. -/
def writeError (err : GoError) (dumpInternalError : Bool) : Nat × Json :=
  match err with
  | .statusErr _ status body => (status, body)
  | _ =>
    let httpErr := translateError err dumpInternalError
    (httpErr.Status, marshalHttpError httpErr)

/-- The envelope shape spec §4.5 step 2 describes for a status-code error:
some `code` alongside the error's message, wrapped under `"error"`. -/
def isSpecStep2Envelope (message : String) (body : Json) : Prop :=
  ∃ code, body = Json.obj [("error",
    Json.obj [("code", Json.str code), ("message", Json.str message)])]

/- ### Route table (spec §4.1), modelled from the spec -/

/-- A pattern segment: literal text, or a named parameter (`:name`). -/
inductive Seg where
  | lit (s : String) : Seg
  | param (name : String) : Seg
deriving DecidableEq, Repr

/-- Modelled from the spec: a route-table trie node.  `litChildren` are the
literal-text children, `paramChild` the single parameter child; `handler`
identifies the endpoint registered at this node, if any. -/
inductive Node where
  | mk (handler : Option Nat) (litChildren : List (String × Node))
       (paramChild : Option (String × Node)) : Node

def emptyNode : Node := .mk none [] none

def lookupChild : List (String × Node) → String → Option Node
  | [], _ => none
  | (k, c) :: rest, s => if k = s then some c else lookupChild rest s

def updateChild (cs : List (String × Node)) (s : String) (c : Node) :
    List (String × Node) :=
  cs.map (fun kv => if kv.1 = s then (s, c) else kv)

/-- Modelled from the spec: `Register` inserts a pattern's segments into the
trie, creating children as needed. -/
def insertNode : Node → List Seg → Nat → Node
  | .mk _ lits par, [], h => .mk (some h) lits par
  | .mk oh lits par, .lit s :: ps, h =>
    (match lookupChild lits s with
     | some c => .mk oh (updateChild lits s (insertNode c ps h)) par
     | none => .mk oh (lits ++ [(s, insertNode emptyNode ps h)]) par)
  | .mk oh lits par, .param n :: ps, h =>
    (match par with
     | some (_, c) => .mk oh lits (some (n, insertNode c ps h))
     | none => .mk oh lits (some (n, insertNode emptyNode ps h)))

/-- Modelled from the spec: matching walks the path segment by segment; at
each node a literal child matching the exact segment text is tried first, and
the parameter child only if no literal child matches; a parameter consumes
exactly one non-empty segment.  Returns the handler and the matched
parameter bindings. -/
def matchNode : Node → List String → Option (Nat × List (String × String))
  | .mk h _ _, [] => h.map (fun x => (x, []))
  | .mk _ lits par, seg :: rest =>
    (match lookupChild lits seg with
     | some c => matchNode c rest
     | none =>
       match par with
       | some (name, c) =>
         if seg = "" then none
         else (matchNode c rest).map (fun r => (r.1, (name, seg) :: r.2))
       | none => none)

/-- Split a request path into segments; the leading empty segment before the
first `/` is dropped, and no other normalization (trailing slash included)
is performed. -/
def pathSegs (p : String) : List String :=
  match splitOnChar '/' p with
  | "" :: rest => rest
  | xs => xs

/-- Parse a registration pattern: a segment starting with the `:` sentinel is
a named parameter, anything else literal text. -/
def patternSegs (p : String) : List Seg :=
  (pathSegs p).map (fun s =>
    match s.toList with
    | ':' :: rest => Seg.param (String.mk rest)
    | _ => Seg.lit s)

/-- Modelled from the spec: the route table keyed jointly by method — a path
registered under a different method is simply not found. -/
structure Router where
  trees : List (String × Node)

def emptyRouter : Router := ⟨[]⟩

def register (r : Router) (method pattern : String) (h : Nat) : Router :=
  match lookupTree r.trees method with
  | some _ => ⟨updateTree r.trees method
      (insertNode ((lookupTree r.trees method).getD emptyNode) (patternSegs pattern) h)⟩
  | none => ⟨r.trees ++ [(method, insertNode emptyNode (patternSegs pattern) h)]⟩
where
  lookupTree : List (String × Node) → String → Option Node
    | [], _ => none
    | (k, c) :: rest, s => if k = s then some c else lookupTree rest s
  updateTree (ts : List (String × Node)) (s : String) (c : Node) :
      List (String × Node) :=
    ts.map (fun kv => if kv.1 = s then (s, c) else kv)

def matchRoute (r : Router) (method path : String) :
    Option (Nat × List (String × String)) :=
  match register.lookupTree r.trees method with
  | some n => matchNode n (pathSegs path)
  | none => none

/-- `Param(name)`: the matched path-parameter value, or empty if absent. -/
def Param (params : List (String × String)) (name : String) : String :=
  (params.lookup name).getD ""

/-- Modelled from the spec §4.6: dispatch returns status 200 with the matched
handler and its parameter bindings, or the 404 not-found response when no
route matches method+path jointly. -/
def dispatch (r : Router) (method path : String) :
    Nat × Option (Nat × List (String × String)) :=
  match matchRoute r method path with
  | some res => (200, some res)
  | none => (404, none)

/- ### Guarded invocation (spec §4.4), modelled from the spec -/

/-- What one endpoint invocation does: return a value, return an error, or
abort.  An abort carries the `%+v` text of its payload. -/
inductive Outcome where
  | value (v : Json) : Outcome
  | failure (e : GoError) : Outcome
  | panicked (payloadText : String) : Outcome

/-- Modelled from the spec §4.4: every invocation runs in a guarded frame; an
abort is caught there, converted into a generic (non-`httpError`) error, and
routed through the exact same write path as an ordinarily-returned error.  A
value is serialized at status 200. -/
def invokeGuarded (dumpInternalError : Bool) : Outcome → Nat × Json
  | .value v => (200, v)
  | .failure e => writeError e dumpInternalError
  | .panicked p => writeError (.plain p) dumpInternalError

/-- Modelled from the spec §7: nothing the translator does is fatal to the
serving process — each inbound call is handled independently, so serving is
just the per-request function mapped over the request stream. -/
def serveAll (dumpInternalError : Bool) (reqs : List Outcome) : List (Nat × Json) :=
  reqs.map (invokeGuarded dumpInternalError)

/- ### RouteMap bulk registration (spec §6), modelled from the spec -/

def knownMethods : List String := ["GET", "HEAD", "POST", "PUT", "PATCH", "DELETE"]

/-- Modelled from the spec: a `RouteMap` key has the form
`"METHOD<whitespace>path"`; it is split on whitespace and must yield exactly
a known method followed by a path. -/
def parseRouteKey (key : String) : Option (String × String) :=
  match (splitOnChar ' ' key).filter (fun s => s ≠ "") with
  | [m, p] => if knownMethods.contains m then some (m, p) else none
  | _ => none

/-- Modelled from the spec: `Routes` parses every key at setup and registers
the route; a key that fails to parse halts setup fatally (`none`, the
registration-time panic), never skipping the entry silently. -/
def routesSetup : List (String × Nat) → Router → Option Router
  | [], r => some r
  | (key, h) :: rest, r =>
    match parseRouteKey key with
    | some (m, p) => routesSetup rest (register r m p h)
    | none => none

/- ### Body binding (spec §4.3), modelled from the spec -/

/-- A JSON syntax failure: the parse failure text and the 1-based byte offset
at which it was detected. -/
structure JsonSyntaxError where
  msg : String
  offset : Nat
deriving DecidableEq, Repr

def quoteChar (c : Char) : String :=
  String.singleton '\x27' ++ String.singleton c ++ String.singleton '\x27'

/-- Skip JSON whitespace, tracking the absolute position. -/
def skipWs : Nat → List Char → Nat × List Char
  | i, c :: rest =>
    if c = ' ' ∨ c = '\t' ∨ c = '\n' ∨ c = '\r' then skipWs (i + 1) rest
    else (i, c :: rest)
  | i, [] => (i, [])

/-- Scan the remainder of a string literal whose opening quote was consumed. -/
def scanStringTail : Nat → List Char → Except JsonSyntaxError (Nat × List Char)
  | i, '"' :: rest => .ok (i + 1, rest)
  | i, '\\' :: _ :: rest => scanStringTail (i + 2) rest
  | i, _ :: rest => scanStringTail (i + 1) rest
  | i, [] => .error ⟨"unexpected end of JSON input", i⟩

def scanDigits : Nat → List Char → Nat × List Char
  | i, c :: rest => if c.isDigit then scanDigits (i + 1) rest else (i, c :: rest)
  | i, [] => (i, [])

/-- Scan a numeric literal starting at a digit or minus sign. -/
def scanNumber (i : Nat) (input : List Char) : Nat × List Char :=
  let (j, rest) :=
    match input with
    | '-' :: rest => scanDigits (i + 1) rest
    | _ => scanDigits i input
  let (k, rest) :=
    match rest with
    | '.' :: rest => scanDigits (j + 1) rest
    | _ => (j, rest)
  match rest with
  | 'e' :: '+' :: rest => scanDigits (k + 2) rest
  | 'e' :: '-' :: rest => scanDigits (k + 2) rest
  | 'e' :: rest => scanDigits (k + 1) rest
  | 'E' :: '+' :: rest => scanDigits (k + 2) rest
  | 'E' :: '-' :: rest => scanDigits (k + 2) rest
  | 'E' :: rest => scanDigits (k + 1) rest
  | _ => (k, rest)

/-- Consume an expected keyword tail (`rue`, `alse`, `ull`). -/
def scanKeyword : Nat → List Char → List Char → Except JsonSyntaxError (Nat × List Char)
  | i, [], rest => .ok (i, rest)
  | i, k :: ks, c :: rest =>
    if c = k then scanKeyword (i + 1) ks rest
    else .error ⟨"invalid character " ++ quoteChar c ++ " in literal", i + 1⟩
  | i, _ :: _, [] => .error ⟨"unexpected end of JSON input", i⟩

mutual

/-- Modelled from the spec: the syntax scan of the external `encoding/json`
collaborator, enough to report the first syntax error with Go's message text
and byte offset.  `fuel` bounds the recursion; every recursive call consumes
at least one input character first, so `input.length + 2` fuel is never
exhausted on the inputs considered. -/
def parseValue : Nat → Nat → List Char → Except JsonSyntaxError (Nat × List Char)
  | 0, i, _ => .error ⟨"nesting exhausted", i⟩
  | fuel + 1, i, input =>
    match skipWs i input with
    | (j, []) => .error ⟨"unexpected end of JSON input", j⟩
    | (j, c :: rest) =>
      let i := j
      if c = '\x7b' then parseMembers fuel (i + 1) rest true
      else if c = '[' then parseElems fuel (i + 1) rest true
      else if c = '"' then scanStringTail (i + 1) rest
      else if c = 't' then scanKeyword (i + 1) ['r', 'u', 'e'] rest
      else if c = 'f' then scanKeyword (i + 1) ['a', 'l', 's', 'e'] rest
      else if c = 'n' then scanKeyword (i + 1) ['u', 'l', 'l'] rest
      else if c = '-' ∨ c.isDigit then .ok (scanNumber i (c :: rest))
      else .error ⟨"invalid character " ++ quoteChar c ++
        " looking for beginning of value", i + 1⟩

/-- Inside an object, positioned after `\x7b` or after a comma: expects a key
(or, when `first`, an immediate closing brace). -/
def parseMembers : Nat → Nat → List Char → Bool → Except JsonSyntaxError (Nat × List Char)
  | 0, i, _, _ => .error ⟨"nesting exhausted", i⟩
  | fuel + 1, i, input, first =>
    let (j, rest) := skipWs i input
    match rest with
    | [] => .error ⟨"unexpected end of JSON input", j⟩
    | c :: rest' =>
      if c = '\x7d' ∧ first then .ok (j + 1, rest')
      else if c = '"' then
        match scanStringTail (j + 1) rest' with
        | .error e => .error e
        | .ok (k, afterKey) =>
          let (k', afterWs) := skipWs k afterKey
          match afterWs with
          | ':' :: afterColon =>
            (match parseValue fuel (k' + 1) afterColon with
             | .error e => .error e
             | .ok (v, afterVal) =>
               let (v', rest'') := skipWs v afterVal
               match rest'' with
               | ',' :: more => parseMembers fuel (v' + 1) more false
               | '\x7d' :: more => .ok (v' + 1, more)
               | d :: _ => .error ⟨"invalid character " ++ quoteChar d ++
                   " after object key:value pair", v' + 1⟩
               | [] => .error ⟨"unexpected end of JSON input", v'⟩)
          | d :: _ => .error ⟨"invalid character " ++ quoteChar d ++
              " after object key", k' + 1⟩
          | [] => .error ⟨"unexpected end of JSON input", k'⟩
      else .error ⟨"invalid character " ++ quoteChar c ++
        " looking for beginning of object key string", j + 1⟩

/-- Inside an array, positioned after `[` or after a comma. -/
def parseElems : Nat → Nat → List Char → Bool → Except JsonSyntaxError (Nat × List Char)
  | 0, i, _, _ => .error ⟨"nesting exhausted", i⟩
  | fuel + 1, i, input, first =>
    let (j, rest) := skipWs i input
    match rest with
    | ']' :: rest' =>
      if first then .ok (j + 1, rest')
      else .error ⟨"invalid character ']' looking for beginning of value", j + 1⟩
    | _ =>
      match parseValue fuel j rest with
      | .error e => .error e
      | .ok (v, afterVal) =>
        let (v', rest'') := skipWs v afterVal
        match rest'' with
        | ',' :: more => parseElems fuel (v' + 1) more false
        | ']' :: more => .ok (v' + 1, more)
        | d :: _ => .error ⟨"invalid character " ++ quoteChar d ++
            " after array element", v' + 1⟩
        | [] => .error ⟨"unexpected end of JSON input", v'⟩

end

/-- Run the syntax scan over a whole body. -/
def checkJsonBody (body : String) : Option JsonSyntaxError :=
  let cs := body.toList
  match parseValue (cs.length + 2) 0 cs with
  | .error e => some e
  | .ok (i, rest) =>
    let (j, rest') := skipWs i rest
    match rest' with
    | [] => none
    | c :: _ => some ⟨"invalid character " ++ quoteChar c ++
        " after top-level value", j + 1⟩

/-- Modelled from the spec §4.3: `BindBody` is not among the provided
sources; on malformed input it fails with a client-input error (`BadRequest`,
status 400) reporting the byte offset and the underlying parse failure
text. -/
def bindBodyError (body : String) : Option GoError :=
  match checkJsonBody body with
  | none => none
  | some e => some (BadRequest
      ("malformed or unexpected json: offset " ++ toString e.offset ++ ": " ++ e.msg))

/- ### Theorems -/

/-- Claim C2: every error that is not a `*httpError` translates to the
envelope with code `"unknown_error"`, message `"an unknown error occurred"`,
status 500; with `dumpInternal` on, the details are the error's `%+v` text
with tabs replaced by two spaces and split into lines, and with it off no
details are attached. -/
theorem translateError_unknown_envelope (err : GoError) (dump : Bool)
    (h : isHttpError err = false) :
    translateError err dump =
      { Code := "unknown_error", Message := "an unknown error occurred"
        Status := 500
        Details := if dump then
            splitOnChar '\n' (replaceTabs (formatGoError err))
          else [] } := by
  cases err with
  | httpErr e => simp [isHttpError] at h
  | statusErr msg status body =>
      cases dump <;>
        simp [translateError, translateErrorSt, unknownError, dumpError]
  | plain formatted =>
      cases dump <;>
        simp [translateError, translateErrorSt, unknownError, dumpError]

/-- Witness for C2 at the concrete error `errors.New("a\tb")` with dumping
enabled. -/
theorem translateError_unknown_envelope_w :
    isHttpError (GoError.plain "a\tb") = false ∧
    translateError (GoError.plain "a\tb") true =
      { Code := "unknown_error", Message := "an unknown error occurred"
        Status := 500, Details := ["a  b"] } := by
  refine ⟨rfl, ?_⟩
  rw [translateError_unknown_envelope (GoError.plain "a\tb") true rfl]
  decide

/-- Claim C3: a `*httpError` passes through `translateError` unmodified for
either value of the dump flag, and the application error declared with
status 404, code `customer_not_found`, message `customer not found`
serializes exactly to
`\x7b"error":\x7b"code":"customer_not_found","message":"customer not found"\x7d\x7d`
and is written at status 404. -/
theorem translateError_httpError_passthrough :
    (∀ (e : HttpError) (dump : Bool), translateError (.httpErr e) dump = e) ∧
    (∀ dump : Bool,
      writeError (Error 404 "customer_not_found" "customer not found") dump =
        (404, Json.obj [("error", Json.obj
          [("code", Json.str "customer_not_found"),
           ("message", Json.str "customer not found")])])) ∧
    renderJson (marshalHttpError
        { Code := "customer_not_found", Message := "customer not found"
          Details := [], Status := 404 }) =
      "\x7b\"error\":\x7b\"code\":\"customer_not_found\",\"message\":\"customer not found\"\x7d\x7d" :=
  ⟨fun _ _ => rfl, fun _ => rfl, rfl⟩

/-- Claim C4: with dumping disabled, the envelopes for any two
non-`httpError` errors coincide — no internal error text reaches the
client. -/
theorem translateError_noDump_uniform (e1 e2 : GoError)
    (h1 : isHttpError e1 = false) (h2 : isHttpError e2 = false) :
    translateError e1 false = translateError e2 false := by
  cases e1 <;> cases e2 <;> simp [isHttpError] at h1 h2 <;> rfl

/-- Witness for C4: a plain error and a status-code error with different
texts produce the same envelope when dumping is off. -/
theorem translateError_noDump_uniform_w :
    isHttpError (GoError.plain "database password wrong") = false ∧
    isHttpError (GoError.statusErr "other text" 7 Json.null) = false ∧
    translateError (GoError.plain "database password wrong") false =
      translateError (GoError.statusErr "other text" 7 Json.null) false :=
  ⟨rfl, rfl, translateError_noDump_uniform _ _ rfl rfl⟩

/-- Claim C5: every `httpError` marshals to an object whose only key is
`"error"`, whose inner object has exactly the keys `code` and `message`
(strings drawn from the error) plus `details` — a list of strings — exactly
when the details list is non-empty. -/
theorem marshalHttpError_shape (e : HttpError) :
    ∃ inner : List (String × Json),
      marshalHttpError e = Json.obj [("error", Json.obj inner)] ∧
      inner.map Prod.fst =
        (if e.Details.isEmpty then ["code", "message"]
         else ["code", "message", "details"]) ∧
      inner.lookup "code" = some (Json.str e.Code) ∧
      inner.lookup "message" = some (Json.str e.Message) ∧
      inner.lookup "details" =
        (if e.Details.isEmpty then none
         else some (Json.arr (e.Details.map Json.str))) := by
  by_cases h : e.Details.isEmpty
  · exact ⟨[("code", Json.str e.Code), ("message", Json.str e.Message)],
      by simp [marshalHttpError, h], by simp [h],
      by simp [List.lookup], by simp [List.lookup], by simp [h, List.lookup]⟩
  · exact ⟨[("code", Json.str e.Code), ("message", Json.str e.Message),
        ("details", Json.arr (e.Details.map Json.str))],
      by simp [marshalHttpError, h], by simp [h],
      by simp [List.lookup], by simp [List.lookup], by simp [h, List.lookup]⟩

/-- Claim C10 is refuted by the code: `&(*unknownError)` aliases the global
(Go simplifies `&*x` to `x`; the `// shallow copy` comment is wrong about
its own semantics), so `translateError(errors.New("boom"), true)` sets
`unknownError.Details` to `["boom"]`, leaving the global different from its
initial value — and a later call `translateError(errors.New("other"), false)`
returns the dirty global, so its envelope depends on the earlier call. -/
theorem translateError_mutates_global :
    (translateErrorSt unknownError (GoError.plain "boom") true).1.Details = ["boom"] ∧
    (translateErrorSt unknownError (GoError.plain "boom") true).1 ≠ unknownError ∧
    (translateErrorSt (translateErrorSt unknownError (GoError.plain "boom") true).1
        (GoError.plain "other") false).2 ≠
      (translateErrorSt unknownError (GoError.plain "other") false).2 := by
  refine ⟨by decide, by decide, by decide⟩

/-- Counterexample to claim C1 as stated: for the test suite's
`testError\x7bMessage: "test", status: 444\x7d`, the emitted body is the
error's own serialization `\x7b"message":"test"\x7d` — not an
`\x7b error:\x7b code, message\x7d\x7d` envelope carrying the error's
message. -/
theorem statusErr_not_step2_envelope :
    ¬ isSpecStep2Envelope "test"
        (writeError (GoError.statusErr "test" 444
          (Json.obj [("message", Json.str "test")])) false).2 := by
  intro ⟨code, h⟩
  simp [writeError] at h

/-- Claim C1 as amended: an error that is not a `*httpError` but exposes
`StatusCode()` is written with the accessor's status and its own JSON
serialization as the body — while `translateError` itself would have
normalized it to the unknown-error envelope, so the bypass in the write path
is what keeps it from the generic envelope. -/
theorem writeError_statusErr (msg : String) (status : Nat) (body : Json)
    (dump : Bool) :
    writeError (.statusErr msg status body) dump = (status, body) ∧
    (translateError (.statusErr msg status body) dump).Code = "unknown_error" := by
  cases dump <;> exact ⟨rfl, rfl⟩

/-- The route table of the similar-endpoint scenario: `/api/orders/:id` and
`/api/orders/xyz` registered on `GET`, in the test's order. -/
def similarRouter : Router :=
  register (register emptyRouter "GET" "/api/orders/:id" 0) "GET" "/api/orders/xyz" 1

/-- Claim C6: with `/api/orders/:id` and `/api/orders/xyz` as siblings on
`GET`, the literal child wins for `/api/orders/xyz`, the parameter child
catches `/api/orders/id-3214-45` binding `id`, and the mismatched literal
prefix `/api/order/xyz` is the 404 not-found response. -/
theorem similarRouter_literal_precedence :
    dispatch similarRouter "GET" "/api/orders/xyz" = (200, some (1, [])) ∧
    dispatch similarRouter "GET" "/api/orders/id-3214-45" =
      (200, some (0, [("id", "id-3214-45")])) ∧
    Param [("id", "id-3214-45")] "id" = "id-3214-45" ∧
    dispatch similarRouter "GET" "/api/order/xyz" = (404, none) := by
  refine ⟨by decide, by decide, by decide, by decide⟩

/-- Claim C7: binding the body `\x7b"id": |1\x7d` fails with the client-input
error whose message reports byte offset 8 and the parser's text, and the
response written for it is status 400 with that message in the envelope. -/
theorem bindBody_badJson_offset8 :
    bindBodyError "\x7b\"id\": |1\x7d" =
      some (BadRequest "malformed or unexpected json: offset 8: invalid character '|' looking for beginning of value") ∧
    writeError (BadRequest "malformed or unexpected json: offset 8: invalid character '|' looking for beginning of value") false =
      (400, Json.obj [("error", Json.obj
        [("code", Json.str "bad_request"),
         ("message", Json.str "malformed or unexpected json: offset 8: invalid character '|' looking for beginning of value")])]) :=
  ⟨rfl, rfl⟩

/-- Claim C8: a panic in a handler is caught at the guarded frame and handled
exactly like an unknown returned error — status 500 with the
`unknown_error` envelope — and serving goes on: the response stream for any
following requests is unchanged. -/
theorem panic_caught_as_unknown (p : String) (dump : Bool) (rest : List Outcome) :
    invokeGuarded dump (.panicked p) = invokeGuarded dump (.failure (.plain p)) ∧
    invokeGuarded false (.panicked p) =
      (500, Json.obj [("error", Json.obj
        [("code", Json.str "unknown_error"),
         ("message", Json.str "an unknown error occurred")])]) ∧
    serveAll dump (Outcome.panicked p :: rest) =
      invokeGuarded dump (.panicked p) :: serveAll dump rest :=
  ⟨rfl, rfl, rfl⟩

/-- Claim C9: a `Routes` map containing any key that does not parse as a
known method followed by a path makes setup halt fatally (`none`), for every
entry list and starting router — it never completes having silently skipped
the entry. -/
theorem malformed_routeKey_fatal (entries : List (String × Nat)) (r : Router)
    (h : ∃ kh ∈ entries, parseRouteKey kh.1 = none) :
    routesSetup entries r = none := by
  induction entries generalizing r with
  | nil => obtain ⟨kh, hmem, _⟩ := h; cases hmem
  | cons a rest ih =>
    obtain ⟨k, hd⟩ := a
    obtain ⟨kh, hmem, hnone⟩ := h
    rcases List.mem_cons.mp hmem with heq | hmem'
    · subst heq
      simp only [routesSetup, hnone]
    · cases hp : parseRouteKey k with
      | none => simp only [routesSetup, hp]
      | some mp =>
        obtain ⟨m, p⟩ := mp
        simp only [routesSetup, hp]
        exact ih (register r m p hd) ⟨kh, hmem', hnone⟩

/-- Witness for C9 at the test's key `"some random text"`. -/
theorem malformed_routeKey_fatal_w :
    (∃ kh ∈ [("some random text", 0)], parseRouteKey kh.1 = none) ∧
    routesSetup [("some random text", 0)] emptyRouter = none :=
  ⟨⟨("some random text", 0), by decide, by decide⟩,
   malformed_routeKey_fatal [("some random text", 0)] emptyRouter
     ⟨("some random text", 0), by decide, by decide⟩⟩

end Jsonrest
